import Mathlib

/- Verification development for the python-xbrl document repair and
fact-resolution engine: a shallow embedding of XBRLPreprocessedFile.__init__
(markup repair), XBRL.get_GAAP (temporal context resolution),
XBRL.data_processing (fact extraction) and XBRL.parse_GAAP / XBRL.from_file
(the GAAP parsing pipeline), with theorems settling the specification
claims about them. -/

namespace PyXbrl

deriving instance DecidableEq for Except

/- ===== Markup repair preprocessor (XBRLPreprocessedFile.__init__) ===== -/

/-- Characters matched by the tag-name character class of the source
regexes, `[a-z0-9_\.]` under the case-insensitive flag: ASCII letters,
digits, underscore and dot. -/
def isNameChar (c : Char) : Bool :=
  c.isAlpha || c.isDigit || c == '_' || c == '.'

/-- Greedy scan of `[a-z0-9_\.]+`: the longest name-character prefix of the
input and the remainder. -/
def takeName : List Char → List Char × List Char
  | [] => ([], [])
  | c :: cs =>
    if isNameChar c then
      let p := takeName cs
      (c :: p.1, p.2)
    else ([], c :: cs)

theorem takeName_append (l : List Char) : (takeName l).1 ++ (takeName l).2 = l := by
  induction l with
  | nil => rfl
  | cons c cs ih =>
    by_cases h : isNameChar c = true
    · simp [takeName, h, ih]
    · simp [takeName, h]

/-- Body of a tag token after the opening angle bracket and an already
consumed optional slash (`slash`): a nonempty name followed directly by the
closing angle bracket. Returns the full matched token body together with
the remaining characters. -/
def tagBodyCore (l : List Char) (slash : List Char) : Option (List Char × List Char) :=
  if (takeName l).1 ≠ [] ∧ (takeName l).2.head? = some '>' then
    some (slash ++ (takeName l).1 ++ ['>'], (takeName l).2.tail)
  else none

theorem tagBodyCore_append {l slash t rest : List Char}
    (h : tagBodyCore l slash = some (t, rest)) : t ++ rest = slash ++ l := by
  rcases htn : takeName l with ⟨tn1, tn2⟩
  have hl := takeName_append l
  rw [htn] at hl
  unfold tagBodyCore at h
  rw [htn] at h
  split at h
  · rename_i hc
    obtain ⟨hne, hh⟩ := hc
    cases tn2 with
    | nil => simp at hh
    | cons g r4 =>
      simp at hh
      simp only [List.tail_cons, Option.some.injEq, Prod.mk.injEq] at h
      obtain ⟨ht, hr⟩ := h
      subst ht; subst hr
      simp only [] at hl
      rw [← hl, hh]
      simp
  · simp at h

/-- After the opening angle bracket of a tag token: optional slash, then a
nonempty name, then the closing angle bracket. -/
def tagBody : List Char → Option (List Char × List Char)
  | c :: r => if c = '/' then tagBodyCore r ['/'] else tagBodyCore (c :: r) []
  | [] => none

theorem tagBody_append {r1 t rest : List Char} (h : tagBody r1 = some (t, rest)) :
    t ++ rest = r1 := by
  cases r1 with
  | nil => simp [tagBody] at h
  | cons c r =>
    by_cases hc : c = '/'
    · rw [tagBody, if_pos hc] at h
      have := tagBodyCore_append h
      rw [this, hc]
      rfl
    · rw [tagBody, if_neg hc] at h
      have := tagBodyCore_append h
      rw [this]
      rfl

/-- One full tag token `</?[a-z0-9_\.]+>` starting at the head of the
stream, with the remaining characters: a single separator match of the
tokenizing `re.split`. -/
def tagTokenAt : List Char → Option (List Char × List Char)
  | c :: r1 =>
    if c = '<' then (tagBody r1).map (fun p => ('<' :: p.1, p.2)) else none
  | [] => none

theorem tagTokenAt_append {s tok rest : List Char}
    (h : tagTokenAt s = some (tok, rest)) : tok ++ rest = s := by
  cases s with
  | nil => simp [tagTokenAt] at h
  | cons c r1 =>
    by_cases hc : c = '<'
    · rw [tagTokenAt, if_pos hc, Option.map_eq_some'] at h
      obtain ⟨⟨t1, r⟩, hb, hmk⟩ := h
      have := tagBody_append hb
      simp only [Prod.mk.injEq] at hmk
      obtain ⟨h1, h2⟩ := hmk
      subst h1; subst h2
      simp [this, hc]
    · rw [tagTokenAt, if_neg hc] at h
      simp at h

/-- Second-pass tokenization of the stream: `re.split` on the tag pattern
with the separator captured, producing alternating (possibly empty) text
chunks and tag tokens, in order, concatenating back to the input. The fuel
argument only bounds the recursion: every step consumes at least one
character, so `s.length` fuel is never exhausted. -/
def splitAux : Nat → List Char → List Char → List (List Char)
  | _, [], acc => [acc.reverse]
  | 0, s, acc => [acc.reverse ++ s]
  | fuel + 1, c :: cs, acc =>
    match tagTokenAt (c :: cs) with
    | some (tok, rest) => acc.reverse :: tok :: splitAux fuel rest []
    | none => splitAux fuel cs (c :: acc)

def splitTokens (s : List Char) : List (List Char) := splitAux s.length s []

theorem splitAux_join (fuel : Nat) :
    ∀ s acc, (splitAux fuel s acc).flatten = acc.reverse ++ s := by
  induction fuel with
  | zero => intro s acc; cases s <;> simp [splitAux]
  | succ f ih =>
    intro s acc
    cases s with
    | nil => simp [splitAux]
    | cons c cs =>
      cases h : tagTokenAt (c :: cs) with
      | none => simp [splitAux, h, ih]
      | some p =>
        obtain ⟨tok, rest⟩ := p
        have htr := tagTokenAt_append h
        simp [splitAux, h, ih, htr]

theorem splitTokens_join (s : List Char) : (splitTokens s).flatten = s := by
  simpa using splitAux_join s.length s []

/-- One closing tag `</name>` at the head of the stream, returning the
captured name and the remainder, as matched by the first-pass
`re.findall` pattern. -/
def closeNameAt : List Char → Option (List Char × List Char)
  | a :: b :: r =>
    if a = '<' ∧ b = '/' then
      if (takeName r).1 ≠ [] ∧ (takeName r).2.head? = some '>' then
        some ((takeName r).1, (takeName r).2.tail)
      else none
    else none
  | _ => none

/-- First pass of the preprocessor: every closing-tag name occurring in the
stream, upper-cased — the known-closed hints, kept as a list exactly as the
source keeps them. -/
def findClosingAux : Nat → List Char → List (List Char)
  | _, [] => []
  | 0, _ => []
  | fuel + 1, c :: cs =>
    match closeNameAt (c :: cs) with
    | some p => p.1.map Char.toUpper :: findClosingAux fuel p.2
    | none => findClosingAux fuel cs

def findClosing (s : List Char) : List (List Char) := findClosingAux s.length s

/-- First match of the tag-name extraction pattern `<*>` in a token: at the
leftmost position where a (possibly empty) run of opening angle brackets is
followed directly by a closing angle bracket, that run together with the
closing bracket — what `re.findall` yields first for this pattern. None
when the token holds no closing angle bracket, in which case the source's
index access raises IndexError. -/
def firstTagMatch : List Char → Option (List Char)
  | [] => none
  | c :: cs =>
    if ((c :: cs).dropWhile (fun x => x == '<')).head? = some '>' then
      some (((c :: cs).takeWhile (fun x => x == '<')) ++ ['>'])
    else firstTagMatch cs

theorem firstTagMatch_isSome {l : List Char} (h : '>' ∈ l) :
    (firstTagMatch l).isSome = true := by
  induction l with
  | nil => simp at h
  | cons c cs ih =>
    by_cases hd : ((c :: cs).dropWhile (fun x => x == '<')).head? = some '>'
    · simp [firstTagMatch, hd]
    · have hc : ¬ c = '>' := by
        intro hce
        subst hce
        simp [List.dropWhile_cons] at hd
      rw [firstTagMatch, if_neg hd]
      apply ih
      rcases List.mem_cons.mp h with h1 | h1
      · exact absurd h1.symm hc
      · exact h1

/-- The startswith classification of a token in the processing loop. -/
def tokIsClosing (t : List Char) : Bool := decide (t.take 2 = ['<', '/'])

def tokIsProcessing (t : List Char) : Bool := decide (t.take 2 = ['<', '?'])

def tokIsCdata (t : List Char) : Bool := decide (t.take 2 = ['<', '!'])

def tokIsTag (t : List Char) : Bool := decide (t.take 1 = ['<']) && !tokIsCdata t

def tokIsOpen (t : List Char) : Bool :=
  tokIsTag t && !tokIsClosing t && !tokIsProcessing t

/-- The synthesized closing tag written for a pending open tag's extracted
name. -/
def closeTagFor (nm : List Char) : List Char := '<' :: '/' :: (nm ++ ['>'])

/-- Second pass of the preprocessor: the per-token loop. Each emitted chunk
is flagged true when it is a synthesized closing tag and false when it is
an input token written through verbatim. On any tag-classified token a
pending open tag is flushed as a synthesized close first; an open-classified
token whose extracted upper-cased name is not among the known-closed hints
becomes the new pending tag. The none result models the IndexError raised
when tag-name extraction finds no match in an open-classified token. -/
def procTokens (closings : List (List Char)) :
    List (List Char) → Option (List Char) → List (Bool × List Char) →
    Option (List (Bool × List Char))
  | [], _, acc => some acc.reverse
  | t :: rest, pending, acc =>
    let acc1 : List (Bool × List Char) :=
      match pending with
      | some nm => if tokIsTag t then (true, closeTagFor nm) :: acc else acc
      | none => acc
    let pend1 : Option (List Char) :=
      match pending with
      | some nm => if tokIsTag t then none else some nm
      | none => none
    if tokIsOpen t then
      match firstTagMatch t with
      | none => none
      | some nm =>
        procTokens closings rest
          (if nm.map Char.toUpper ∈ closings then pend1 else some nm)
          ((false, t) :: acc1)
    else
      procTokens closings rest pend1 ((false, t) :: acc1)

/-- The whole preprocessor, kept at the level of emitted chunks: closing-tag
hints from the first pass, then the token loop. -/
def repairEmits (s : List Char) : Option (List (Bool × List Char)) :=
  procTokens (findClosing s) (splitTokens s) none []

/-- The repaired character stream (the contents of the StringIO the source
builds); none models the IndexError failure path. -/
def repairChars (s : List Char) : Option (List Char) :=
  (repairEmits s).map (fun l => (l.map Prod.snd).flatten)

def repairStr (s : String) : Option String :=
  (repairChars s.data).map List.asString

theorem procTokens_total (toks : List (List Char)) :
    ∀ closings pending acc,
      (∀ t ∈ toks, tokIsOpen t = true → '>' ∈ t) →
      (procTokens closings toks pending acc).isSome = true := by
  induction toks with
  | nil => intro closings pending acc _; simp [procTokens]
  | cons t rest ih =>
    intro closings pending acc h
    have hrest : ∀ u ∈ rest, tokIsOpen u = true → '>' ∈ u := by
      intro u hu; exact h u (List.mem_cons_of_mem _ hu)
    cases ho : tokIsOpen t with
    | true =>
      have hm := firstTagMatch_isSome (h t (List.mem_cons_self _ _) ho)
      cases hfm : firstTagMatch t with
      | none => rw [hfm] at hm; simp at hm
      | some nm =>
        simp only [procTokens, ho, hfm, if_true]
        exact ih _ _ _ hrest
    | false =>
      simp only [procTokens, ho, Bool.false_eq_true, if_false]
      exact ih _ _ _ hrest

theorem procTokens_originals (toks : List (List Char)) :
    ∀ closings pending acc l,
      procTokens closings toks pending acc = some l →
      (l.filter (fun p => !p.1)).map Prod.snd
        = ((acc.filter (fun p => !p.1)).map Prod.snd).reverse ++ toks := by
  induction toks with
  | nil =>
    intro closings pending acc l h
    simp only [procTokens, Option.some.injEq] at h
    subst h
    simp [List.filter_reverse, List.map_reverse]
  | cons t rest ih =>
    intro closings pending acc l h
    cases ho : tokIsOpen t with
    | true =>
      cases hfm : firstTagMatch t with
      | none => simp [procTokens, ho, hfm] at h
      | some nm =>
        simp only [procTokens, ho, hfm, if_true] at h
        have h2 := ih _ _ _ _ h
        rw [h2]
        cases pending with
        | none => simp
        | some nm0 =>
          cases ht : tokIsTag t with
          | true => simp [ht]
          | false => simp [ht]
    | false =>
      simp only [procTokens, ho, Bool.false_eq_true, if_false] at h
      have h2 := ih _ _ _ _ h
      rw [h2]
      cases pending with
      | none => simp
      | some nm0 =>
        cases ht : tokIsTag t with
        | true => simp [ht]
        | false => simp [ht]

theorem flatten_filter_length_le (l : List (Bool × List Char))
    (p : Bool × List Char → Bool) :
    (((l.filter p).map Prod.snd).flatten).length
      ≤ ((l.map Prod.snd).flatten).length := by
  induction l with
  | nil => simp
  | cons a rest ih =>
    cases hp : p a with
    | true =>
      simp only [List.filter_cons, hp, if_true, List.map_cons, List.flatten_cons,
        List.length_append]
      exact Nat.add_le_add_left ih _
    | false =>
      simp only [List.filter_cons, hp, Bool.false_eq_true, if_false, List.map_cons,
        List.flatten_cons, List.length_append]
      exact le_trans ih (Nat.le_add_left _ _)

/-- C1: in the second pass, the name extracted from an open tag is the first
match of the pattern going over angle brackets only, never the tag's own
name; hence every open tag, including one whose case-folded name is in the
known-closed set collected in the first pass, becomes the pending tag, and
the token synthesized at the next tag boundary is the fixed garbage close
tag rather than the matching close tag for that name. Evaluated at the
stream with tag a explicitly closed and tag b unclosed: the claimed output
would leave the explicitly closed tag a alone, but the code synthesizes a
spurious close before its real closing tag. -/
theorem c1_open_tag_pending_behavior :
    repairStr "<a></a><b>" = some "<a></>></a><b>" := by decide

/-- C2: the markup-repair preprocessor is not idempotent. On the stream with
two unclosed tags, one application yields a stream containing the synthetic
chunk between the tags; that chunk re-tokenizes as a closing-tag-classified
token in a second pass, which flushes the again-pending first tag once more,
so the second application inserts a further chunk and differs from the
first. -/
theorem c2_repair_not_idempotent :
    repairStr "<a><b>" = some "<a></>><b>" ∧
    (repairStr "<a><b>").bind repairStr = some "<a></>></>><b>" ∧
    ¬ (repairStr "<a><b>").bind repairStr = repairStr "<a><b>" := by decide

/-- C3 (counterexample): the preprocessor does have a failure mode — on the
one-character stream consisting of a lone opening angle bracket, the token
is open-classified but holds no closing angle bracket, tag-name extraction
finds no match, and the index access raises IndexError; no output stream is
produced. -/
theorem c3_lone_angle_raises : repairStr "<" = none := by decide

/-- C3 (amended): the preprocessor completes without raising and produces an
output stream on every input whose open-classified tokens each contain a
closing angle bracket (in particular on every stream in which each opening
angle bracket is eventually followed by a closing one within its token); the
only failure path is tag-name extraction on an open-classified token with no
closing angle bracket. -/
theorem c3_repair_success (s : List Char)
    (h : ∀ t ∈ splitTokens s, tokIsOpen t = true → '>' ∈ t) :
    (repairChars s).isSome = true := by
  cases hp : procTokens (findClosing s) (splitTokens s) none [] with
  | none =>
    have htot := procTokens_total (splitTokens s) (findClosing s) none [] h
    rw [hp] at htot
    simp at htot
  | some l => simp [repairChars, repairEmits, hp]

theorem c3_repair_success_witness : (repairChars ("<a>".data)).isSome = true :=
  c3_repair_success _ (by decide)

/-- C9: the preprocessor only inserts synthesized close tags. Whenever it
produces emitted chunks, the chunks flagged as original are exactly the
input tokenization in its original order with unaltered content; their
concatenation — the output with all synthesized close tags removed — is the
original stream; the produced output is the concatenation of all chunks and
is at least as long as the input. -/
theorem c9_insertion_only (s : List Char) (l : List (Bool × List Char))
    (h : repairEmits s = some l) :
    (l.filter (fun p => !p.1)).map Prod.snd = splitTokens s ∧
    ((l.filter (fun p => !p.1)).map Prod.snd).flatten = s ∧
    repairChars s = some ((l.map Prod.snd).flatten) ∧
    s.length ≤ ((l.map Prod.snd).flatten).length := by
  have h0 : procTokens (findClosing s) (splitTokens s) none [] = some l := h
  have h1 := procTokens_originals (splitTokens s) (findClosing s) none [] l h0
  simp only [List.filter_nil, List.map_nil, List.reverse_nil, List.nil_append] at h1
  have h2 : ((l.filter (fun p => !p.1)).map Prod.snd).flatten = s := by
    rw [h1]; exact splitTokens_join s
  refine ⟨h1, h2, ?_, ?_⟩
  · simp [repairChars, h]
  · calc s.length = (((l.filter (fun p => !p.1)).map Prod.snd).flatten).length := by
          rw [h2]
      _ ≤ ((l.map Prod.snd).flatten).length := flatten_filter_length_le l _

theorem c9_insertion_only_witness :
    repairChars ("<a><b>".data) = some ("<a></>><b>".data) ∧
    ("<a><b>".data).length ≤ ("<a></>><b>".data).length := by
  have h := c9_insertion_only ("<a><b>".data)
      [(false, []), (false, "<a>".data), (false, []), (true, "</>>".data),
       (false, "<b>".data), (false, [])] (by decide)
  obtain ⟨h1, h2, h3, h4⟩ := h
  constructor
  · rw [h3]; decide
  · have h5 : (([((false : Bool), ([] : List Char)), (false, "<a>".data),
        (false, []), (true, "</>>".data), (false, "<b>".data),
        (false, [])].map Prod.snd).flatten) = "<a></>><b>".data := by decide
    rw [h5] at h4
    exact h4

/- ===== Temporal context resolution (XBRL.get_GAAP) ===== -/

/-- A context catalog entry as parse_contexts stores it: a one-element tuple
holding an instant date, or a (start, end) pair. Dates are whole days here
(an Int day number): parse_contexts builds midnight datetimes from
`YYYYMMDD`, so all date arithmetic in get_GAAP is in whole days. -/
inductive CtxPeriod where
  | instant (d : Int)
  | duration (sd ed : Int)
deriving DecidableEq

/-- The period selector passed to get_GAAP: the strings "instant", "quarter"
and "year", or an explicit day count (covering both the integer form and an
explicit timedelta). quarter is turned into 90 days and year into 360 days
by the source before matching. -/
inductive Sel where
  | instant
  | quarter
  | year
  | days (n : Int)
deriving DecidableEq

/-- The timedelta value (in days) a non-instant selector is converted to. -/
def Sel.durationDays : Sel → Int
  | Sel.quarter => 90
  | Sel.year => 360
  | Sel.days n => n
  | Sel.instant => 0

/-- Errors of the resolution loop: the explicit raise when no context id
matched, and the TypeError Python raises when the string selector "instant"
is compared against a timedelta in the duration branch. -/
inductive RErr where
  | noMatch
  | typeErr
deriving DecidableEq

/-- The context-matching loop of XBRL.get_GAAP over the catalog in insertion
order. An instant entry matches when the selector is "instant" and its date
equals the end date. A duration entry is tested in the elif branch, whose
first chained comparison evaluates selector <= (end - start): with the
string selector "instant" this comparison itself raises TypeError; with a
timedelta selector the entry matches when the span lies within a week above
the selector duration and the entry's end equals the end date. -/
def get_GAAP_resolve (sel : Sel) (endDate : Int) :
    List (String × CtxPeriod) → Except RErr String
  | [] => Except.error RErr.noMatch
  | (cid, p) :: rest =>
    match p with
    | CtxPeriod.instant d =>
      if sel = Sel.instant ∧ d = endDate then Except.ok cid
      else get_GAAP_resolve sel endDate rest
    | CtxPeriod.duration a b =>
      match sel with
      | Sel.instant => Except.error RErr.typeErr
      | s =>
        if s.durationDays ≤ b - a ∧ b - a ≤ s.durationDays + 7 ∧ b = endDate then
          Except.ok cid
        else get_GAAP_resolve sel endDate rest

/-- The qualification predicate of the specification for duration
selectors: a duration entry whose end equals the end date and whose span
lies in the closed interval from the selector duration to a week above
it. -/
def durQualifies (sel : Sel) (endDate : Int) : CtxPeriod → Bool
  | CtxPeriod.instant _ => false
  | CtxPeriod.duration a b =>
    decide (sel.durationDays ≤ b - a ∧ b - a ≤ sel.durationDays + 7 ∧ b = endDate)

/-- C4: with a duration selector (quarter = 90 days, year = 360 days, or an
explicit day count), resolution returns the id of the first catalog entry
in insertion order that is a duration context ending exactly on the end
date with a span in the closed interval from the selector duration to the
selector duration plus seven days, and fails with the no-context-matched
error when no entry qualifies. -/
theorem resolve_cons_duration (s : Sel) (hs : s ≠ Sel.instant)
    (endDate a b : Int) (cid : String) (rest : List (String × CtxPeriod)) :
    get_GAAP_resolve s endDate ((cid, CtxPeriod.duration a b) :: rest)
      = if s.durationDays ≤ b - a ∧ b - a ≤ s.durationDays + 7 ∧ b = endDate then
          Except.ok cid
        else get_GAAP_resolve s endDate rest := by
  cases s with
  | instant => exact absurd rfl hs
  | quarter => rfl
  | year => rfl
  | days n => rfl

theorem c4_duration_first_match (catalog : List (String × CtxPeriod))
    (sel : Sel) (endDate : Int) (h : sel ≠ Sel.instant) :
    get_GAAP_resolve sel endDate catalog
      = (catalog.find? (fun p => durQualifies sel endDate p.2)).elim
          (Except.error RErr.noMatch) (fun p => Except.ok p.1) := by
  induction catalog with
  | nil => simp [get_GAAP_resolve]
  | cons hd tl ih =>
    obtain ⟨cid, p⟩ := hd
    cases p with
    | instant d =>
      have hcond : ¬ (sel = Sel.instant ∧ d = endDate) := fun hc => h hc.1
      rw [show get_GAAP_resolve sel endDate ((cid, CtxPeriod.instant d) :: tl)
            = if sel = Sel.instant ∧ d = endDate then Except.ok cid
              else get_GAAP_resolve sel endDate tl from rfl,
          if_neg hcond,
          List.find?_cons_of_neg _ (by simp [durQualifies])]
      exact ih
    | duration a b =>
      rw [resolve_cons_duration sel h]
      by_cases hq : sel.durationDays ≤ b - a ∧
          b - a ≤ sel.durationDays + 7 ∧ b = endDate
      · have hqd : durQualifies sel endDate (CtxPeriod.duration a b) = true := by
          simp only [durQualifies, decide_eq_true_eq]
          exact hq
        rw [if_pos hq]
        simp [List.find?_cons, hqd]
      · have hqd : durQualifies sel endDate (CtxPeriod.duration a b) = false := by
          simp only [durQualifies, decide_eq_false_iff_not]
          exact hq
        rw [if_neg hq]
        simp only [List.find?_cons, hqd]
        exact ih

theorem c4_duration_first_match_witness :
    get_GAAP_resolve Sel.quarter 90 [("C1", CtxPeriod.duration 0 90)]
      = Except.ok "C1" := by
  have h := c4_duration_first_match [("C1", CtxPeriod.duration 0 90)]
      Sel.quarter 90 (by decide)
  rw [h]
  decide

/-- C5 (counterexample): with the instant selector, a duration entry in the
catalog is not skipped — its elif branch compares the string selector with
a timedelta and raises TypeError — so a catalog holding a duration entry
before the matching instant entry does not resolve to the instant entry's
id as the claim states. -/
theorem c5_instant_not_skipping :
    get_GAAP_resolve Sel.instant 5
        [("D1", CtxPeriod.duration 0 90), ("I1", CtxPeriod.instant 5)]
      = Except.error RErr.typeErr ∧
    ¬ get_GAAP_resolve Sel.instant 5
        [("D1", CtxPeriod.duration 0 90), ("I1", CtxPeriod.instant 5)]
      = Except.ok "I1" := by decide

/-- C5 (amended): with the instant selector, resolution returns the id of
the first instant entry whose date equals the end date provided every
earlier catalog entry is an instant entry with a different date; duration
entries are not skipped (one reached under the instant selector raises
TypeError instead). In particular the singleton catalog holding the instant
entry I1 at the end date resolves to I1. -/
theorem c5_instant_resolution (pre rest : List (String × CtxPeriod))
    (cid : String) (endDate : Int)
    (h : ∀ q ∈ pre, ∃ d, q.2 = CtxPeriod.instant d ∧ d ≠ endDate) :
    get_GAAP_resolve Sel.instant endDate
        (pre ++ (cid, CtxPeriod.instant endDate) :: rest)
      = Except.ok cid := by
  induction pre with
  | nil => simp [get_GAAP_resolve]
  | cons q pre0 ih =>
    obtain ⟨c0, p0⟩ := q
    obtain ⟨d, hd, hne⟩ := h (c0, p0) (List.mem_cons_self _ _)
    simp only at hd
    subst hd
    have hcond : ¬ (Sel.instant = Sel.instant ∧ d = endDate) := fun hc => hne hc.2
    rw [show get_GAAP_resolve Sel.instant endDate
          (((c0, CtxPeriod.instant d) :: pre0)
            ++ (cid, CtxPeriod.instant endDate) :: rest)
        = if Sel.instant = Sel.instant ∧ d = endDate then Except.ok c0
          else get_GAAP_resolve Sel.instant endDate
            (pre0 ++ (cid, CtxPeriod.instant endDate) :: rest)
        from rfl,
      if_neg hcond]
    exact ih (fun u hu => h u (List.mem_cons_of_mem _ hu))

theorem c5_instant_resolution_witness :
    get_GAAP_resolve Sel.instant 20200630 [("I1", CtxPeriod.instant 20200630)]
      = Except.ok "I1" :=
  c5_instant_resolution [] [] "I1" 20200630 (by simp)

/- ===== Fact extraction (XBRL.is_number / XBRL.data_processing) ===== -/

def digitsToNat (l : List Char) : Nat :=
  l.foldl (fun a c => 10 * a + (c.toNat - 48)) 0

/-- Python float(s) on the decimal literal forms that occur in these
documents: optional sign, then digits, digits dot digits, digits dot, or
dot digits. Exponent forms, inf and nan, underscores and surrounding
whitespace are outside the model. The exact rational value is kept: the
source only uses the parsed value itself and the int-versus-float
distinction, never any floating-point rounding. -/
def pyFloatCore (l : List Char) : Option Rat :=
  match l.dropWhile Char.isDigit with
  | [] =>
    if (l.takeWhile Char.isDigit).isEmpty then none
    else some ((digitsToNat (l.takeWhile Char.isDigit) : Rat))
  | '.' :: r3 =>
    if (r3.dropWhile Char.isDigit).isEmpty
        ∧ ¬ ((l.takeWhile Char.isDigit).isEmpty
              ∧ (r3.takeWhile Char.isDigit).isEmpty) then
      some ((digitsToNat (l.takeWhile Char.isDigit) : Rat)
        + (digitsToNat (r3.takeWhile Char.isDigit) : Rat)
          / ((10 : Rat) ^ (r3.takeWhile Char.isDigit).length))
    else none
  | _ => none

def pyFloat (s : String) : Option Rat :=
  match s.data with
  | '+' :: r => pyFloatCore r
  | '-' :: r => (pyFloatCore r).map (fun q => -q)
  | _ => pyFloatCore s.data

/-- Python int(s): optional sign then digits (underscores and surrounding
whitespace outside the model). -/
def pyIntCore (l : List Char) : Option Int :=
  if ¬ l.isEmpty ∧ l.all Char.isDigit then some ((digitsToNat l : Int)) else none

def pyInt (s : String) : Option Int :=
  match s.data with
  | '+' :: r => pyIntCore r
  | '-' :: r => (pyIntCore r).map (fun n => -n)
  | _ => pyIntCore s.data

/-- XBRL.is_number: whether float(s) succeeds. -/
def is_number (s : String) : Bool := (pyFloat s).isSome

/-- A matched markup node as the extraction engine sees it: its attribute
mapping and its text content. -/
structure Element where
  attrs : List (String × String)
  text : String
deriving DecidableEq

/-- A stored fact value, keeping the int-versus-float distinction the
decimals branch selects (a Python float value is kept as its exact
rational). -/
inductive Val where
  | i (n : Int)
  | f (q : Rat)
deriving DecidableEq

/-- The Python exceptions surfaced by the embedded fragments: the
XBRLException raised on a strict-mode value extraction error, and the
TypeError raised by an unsupported operation. -/
inductive PyErr where
  | valueExtraction
  | typeError
deriving DecidableEq

/-- Result of data_processing: either a raw text early return (the String
and contextless paths) or the contextId-to-value mapping built by the
contextful loop. -/
inductive DPResult where
  | text (s : String)
  | map (m : List (String × Val))
deriving DecidableEq

/-- Python dict assignment data[k] = v on an insertion-ordered dict: an
existing key keeps its position and gets the new value, a fresh key is
appended. -/
def dictInsert {α : Type} : List (String × α) → String → α → List (String × α)
  | [], k, v => [(k, v)]
  | (k0, v0) :: rest, k, v =>
    if k0 = k then (k0, v) :: rest else (k0, v0) :: dictInsert rest k v

/-- The body of the per-element try block of XBRL.data_processing:
error () is an exception inside the try (KeyError from attribute item
access, ValueError from int()); ok none is a node whose text is not
numeric, which records nothing; ok (some (ctx, v)) records data[ctx] = v.
The source reads the decimals attribute with item access, so a node
without it raises KeyError before the decimals-is-not-None guard (which is
therefore dead code and has no counterpart here) is ever reached. A
positive parsed decimals value stores float(text), otherwise int(text) is
stored — int() raising ValueError on float-only numerals. -/
def elemStep (e : Element) : Except Unit (Option (String × Val)) :=
  match e.attrs.lookup "contextref" with
  | none => Except.error ()
  | some ctx =>
    if is_number e.text then
      match e.attrs.lookup "decimals" with
      | none => Except.error ()
      | some decs =>
        match pyInt decs with
        | none => Except.error ()
        | some precision =>
          if 0 < precision then
            match pyFloat e.text with
            | some q => Except.ok (some (ctx, Val.f q))
            | none => Except.error ()
          else
            match pyInt e.text with
            | some n => Except.ok (some (ctx, Val.i n))
            | none => Except.error ()
    else Except.ok none

/-- Whether the try block of data_processing raises on this node. -/
def elemFails (e : Element) : Bool :=
  match elemStep e with
  | Except.error _ => true
  | Except.ok _ => false

/-- The extraction loop of XBRL.data_processing under the source's error
policy: strict (ignore_errors = 0) re-raises any failure as the value
extraction error; permissive (1) and logging (2) skip the failing node and
continue (the log write of logging mode has no effect on the data flow and
is omitted). -/
def dpLoop (ignore_errors : Nat) : List Element → List (String × Val) →
    Except PyErr (List (String × Val))
  | [], data => Except.ok data
  | e :: rest, data =>
    match elemStep e with
    | Except.ok none => dpLoop ignore_errors rest data
    | Except.ok (some (k, v)) => dpLoop ignore_errors rest (dictInsert data k v)
    | Except.error _ =>
      if ignore_errors = 0 then Except.error PyErr.valueExtraction
      else dpLoop ignore_errors rest data

/-- The options dict of data_processing. -/
structure DPOptions where
  type : String
  no_context : Bool
deriving DecidableEq

/-- The source's default options: contextful numeric extraction. -/
def numOpts : DPOptions := ⟨"Number", false⟩

/-- The options of the contextless numeric call sites. -/
def ncNumOpts : DPOptions := ⟨"Number", true⟩

/-- XBRL.data_processing: the String early return on a nonempty batch, then
the contextless early return when the first node's text is numeric — both
fall through to the contextful loop otherwise, exactly as the source's
unguarded if chain does. The logger argument is omitted: it only writes
diagnostics and never changes the returned data. -/
def data_processing (elements : List Element) (ignore_errors : Nat)
    (options : DPOptions) : Except PyErr DPResult :=
  match options.type == "String", elements.head? with
  | true, some e0 => Except.ok (DPResult.text e0.text)
  | _, _ =>
    match options.no_context, elements.head? with
    | true, some e0 =>
      if is_number e0.text then Except.ok (DPResult.text e0.text)
      else (dpLoop ignore_errors elements []).map DPResult.map
    | _, _ => (dpLoop ignore_errors elements []).map DPResult.map

theorem dp_contextful (elements : List Element) (ie : Nat) :
    data_processing elements ie numOpts
      = (dpLoop ie elements []).map DPResult.map := by
  cases elements <;> rfl

theorem dpLoop_strict_error (l : List Element) :
    ∀ data, (∃ e ∈ l, elemFails e = true) →
      dpLoop 0 l data = Except.error PyErr.valueExtraction := by
  induction l with
  | nil => intro data h; simp at h
  | cons e rest ih =>
    intro data h
    cases hs : elemStep e with
    | error u => simp [dpLoop, hs]
    | ok v =>
      have he : elemFails e = false := by simp [elemFails, hs]
      have hrest : ∃ u ∈ rest, elemFails u = true := by
        obtain ⟨x, hx, hfx⟩ := h
        rcases List.mem_cons.mp hx with h1 | h1
        · subst h1; rw [he] at hfx; exact absurd hfx (by simp)
        · exact ⟨x, h1, hfx⟩
      cases v with
      | none => simp only [dpLoop, hs]; exact ih _ hrest
      | some kv =>
        obtain ⟨k, w⟩ := kv
        simp only [dpLoop, hs]
        exact ih _ hrest

theorem dpLoop_permissive_filter (l : List Element) :
    ∀ data, dpLoop 1 l data = dpLoop 0 (l.filter (fun e => !elemFails e)) data := by
  induction l with
  | nil => intro data; rfl
  | cons e rest ih =>
    intro data
    cases hs : elemStep e with
    | error u =>
      have he : elemFails e = true := by simp [elemFails, hs]
      simp only [dpLoop, hs, List.filter_cons, he, Bool.not_true,
        Bool.false_eq_true, if_false]
      exact ih _
    | ok v =>
      have he : elemFails e = false := by simp [elemFails, hs]
      cases v with
      | none =>
        simp only [dpLoop, hs, List.filter_cons, he, Bool.not_false, if_true]
        exact ih _
      | some kv =>
        obtain ⟨k, w⟩ := kv
        simp only [dpLoop, hs, List.filter_cons, he, Bool.not_false, if_true]
        exact ih _

theorem dpLoop_nonstrict_ok (l : List Element) :
    ∀ data ie, ie ≠ 0 → ∃ m, dpLoop ie l data = Except.ok m := by
  induction l with
  | nil => intro data ie _; exact ⟨data, rfl⟩
  | cons e rest ih =>
    intro data ie hie
    cases hs : elemStep e with
    | error u =>
      simp only [dpLoop, hs, if_neg hie]
      exact ih _ _ hie
    | ok v =>
      cases v with
      | none => simp only [dpLoop, hs]; exact ih _ _ hie
      | some kv =>
        obtain ⟨k, w⟩ := kv
        simp only [dpLoop, hs]
        exact ih _ _ hie

/-- C6: on the contextful numeric path, under the strict policy any
extraction failure on any node of the batch — missing contextref, a text
that passes the numeric check but fails integer conversion, a malformed
(or, additionally, missing) decimals attribute — makes the whole batch
raise the value extraction error; under the permissive policy the result
is exactly the strict result over the batch with the failing nodes removed,
so extraction continues and the mapping merely omits the failing nodes'
contributions. -/
theorem c6_strict_aborts_permissive_skips (elements : List Element)
    (h : ∃ e ∈ elements, elemFails e = true) :
    data_processing elements 0 numOpts = Except.error PyErr.valueExtraction ∧
    data_processing elements 1 numOpts
      = data_processing (elements.filter (fun e => !elemFails e)) 0 numOpts := by
  rw [dp_contextful, dp_contextful, dp_contextful]
  constructor
  · rw [dpLoop_strict_error elements _ h]
    rfl
  · rw [dpLoop_permissive_filter]

theorem c6_strict_aborts_permissive_skips_witness :
    data_processing [Element.mk [] "5", Element.mk [("contextref", "c")] "7"]
        0 numOpts = Except.error PyErr.valueExtraction ∧
    data_processing [Element.mk [] "5", Element.mk [("contextref", "c")] "7"]
        1 numOpts
      = data_processing
          ([Element.mk [] "5", Element.mk [("contextref", "c")] "7"].filter
            (fun e => !elemFails e)) 0 numOpts :=
  c6_strict_aborts_permissive_skips _ (by decide)

/-- C7: for a contextful numeric node with numeric text, an absent decimals
attribute is not treated as zero — the item access raises KeyError, so the
node is a failure: strict mode raises and permissive mode omits the node
instead of storing the integer value the claim requires. With the attribute
present the claimed typing does hold for the same literal text: decimals 2
stores a float value and decimals 0 stores an int value. -/
theorem c7_missing_decimals_is_error :
    data_processing [Element.mk [("contextref", "c")] "1000"] 0 numOpts
      = Except.error PyErr.valueExtraction ∧
    data_processing [Element.mk [("contextref", "c")] "1000"] 1 numOpts
      = Except.ok (DPResult.map []) ∧
    data_processing [Element.mk [("contextref", "c"), ("decimals", "2")] "1000"]
        0 numOpts
      = Except.ok (DPResult.map [("c", Val.f 1000)]) ∧
    data_processing [Element.mk [("contextref", "c"), ("decimals", "0")] "1000"]
        0 numOpts
      = Except.ok (DPResult.map [("c", Val.i 1000)]) := by decide

/-- C8 (counterexample): the contextless numeric path can raise under the
strict policy — when the first node's text does not parse as a number the
code falls through to the contextful loop, and a node without contextref
then raises the value extraction error rather than returning nothing. -/
theorem c8_contextless_can_raise :
    data_processing [Element.mk [] "abc"] 0 ncNumOpts
      = Except.error PyErr.valueExtraction := by decide

/-- C8 (amended): with contextless numeric options, a nonempty batch whose
first node's text parses as a number returns that text under every error
policy; when the first text is not numeric the call falls through to the
contextful loop, so it is only under the permissive and logging policies
that this path can never raise. -/
theorem c8_contextless_number (elements : List Element) (ie : Nat) :
    (∀ e0, elements.head? = some e0 → is_number e0.text = true →
      data_processing elements ie ncNumOpts = Except.ok (DPResult.text e0.text)) ∧
    (ie ≠ 0 → ∃ r, data_processing elements ie ncNumOpts = Except.ok r) := by
  cases elements with
  | nil =>
    constructor
    · intro e0 h0; simp at h0
    · intro _; exact ⟨DPResult.map [], rfl⟩
  | cons e rest =>
    constructor
    · intro e0 h0 hn
      simp only [List.head?_cons, Option.some.injEq] at h0
      subst h0
      show (if is_number e.text then Except.ok (DPResult.text e.text)
        else (dpLoop ie (e :: rest) []).map DPResult.map)
          = Except.ok (DPResult.text e.text)
      rw [if_pos hn]
    · intro hie
      by_cases hn : is_number e.text = true
      · exact ⟨DPResult.text e.text, by
          show (if is_number e.text then Except.ok (DPResult.text e.text)
            else (dpLoop ie (e :: rest) []).map DPResult.map)
              = Except.ok (DPResult.text e.text)
          rw [if_pos hn]⟩
      · obtain ⟨m, hm⟩ := dpLoop_nonstrict_ok (e :: rest) [] ie hie
        refine ⟨DPResult.map m, ?_⟩
        show (if is_number e.text then Except.ok (DPResult.text e.text)
          else (dpLoop ie (e :: rest) []).map DPResult.map)
            = Except.ok (DPResult.map m)
        rw [if_neg hn, hm]
        rfl

theorem c8_contextless_number_witness :
    data_processing [Element.mk [] "10"] 1 ncNumOpts
      = Except.ok (DPResult.text "10") ∧
    (∃ r, data_processing [Element.mk [] "10"] 1 ncNumOpts = Except.ok r) :=
  ⟨(c8_contextless_number [Element.mk [] "10"] 1).1 (Element.mk [] "10") rfl
      (by decide),
    (c8_contextless_number [Element.mk [] "10"] 1).2 (by decide)⟩

/- ===== GAAP parsing pipeline (XBRL.parse_GAAP / XBRL.from_file) ===== -/

/-- The tag-query results XBRL.parse_GAAP reads from the document tree, one
field per find_all call, in source order. The tree query itself is the
external document-tree collaborator; parse_GAAP only consumes the matched
node lists. -/
structure Doc where
  assets : List Element
  current_assets : List Element
  non_current_assets : List Element
  liabilities_and_equity : List Element
  liabilities : List Element
  current_liabilities : List Element
  noncurrent_liabilities : List Element
  commitments_and_contingencies : List Element
  redeemable_noncontrolling_interest : List Element
  temporary_equity : List Element
  equity : List Element
  minority_interest : List Element
  partners_capital_noncontrolling : List Element
  equity_attributable_parent : List Element
  stockholders_equity : List Element
  revenues : List Element
  cost_of_revenue : List Element
  cost_of_services : List Element
  cost_of_goods_sold : List Element
  cost_of_goods_and_services_sold : List Element
  gross_profit : List Element
  operating_expenses : List Element
  costs_and_expenses : List Element
  other_operating_income : List Element
  operating_income_loss : List Element
  nonoperating_income_loss : List Element
  interest_and_debt_expense : List Element
  income_before_equity_investments : List Element
  income_from_equity_investments : List Element
  income_tax_expense_benefit : List Element
  income_continuing_operations_tax : List Element
  income_discontinued_operations : List Element
  extraordary_items_gain_loss : List Element
  income_loss : List Element
  profit_loss : List Element
  net_income_shareholders : List Element
  preferred_stock_dividends : List Element
  net_income_loss_noncontrolling : List Element
  net_income_loss : List Element
  other_comprehensive_income : List Element
  comprehensive_income : List Element
  comprehensive_income_parent : List Element
  comprehensive_income_interest : List Element
  net_cash_flows_operating : List Element
  net_cash_flows_investing : List Element
  net_cash_flows_financing : List Element
  net_cash_flows_operating_continuing : List Element
  net_cash_flows_investing_continuing : List Element
  net_cash_flows_financing_continuing : List Element
  net_cash_flows_operating_discontinued : List Element
  net_cash_flows_investing_discontinued : List Element
  net_cash_flows_discontinued : List Element
  common_shares_outstanding : List Element
  common_shares_issued : List Element
  common_shares_authorized : List Element

/-- The document with no matched tags at all. -/
def emptyDoc : Doc :=
  ⟨[], [], [], [], [], [], [], [], [], [], [], [], [], [], [], [], [], [],
    [], [], [], [], [], [], [], [], [], [], [], [], [], [], [], [], [], [],
    [], [], [], [], [], [], [], [], [], [], [], [], [], [], [], [], [], [],
    []⟩

/-- Python subtraction applied to two data_processing results: each operand
is a dict or a str value, and neither type supports the subtraction
operator, so the attempt always raises TypeError. -/
def pySub (_a _b : DPResult) : Except PyErr DPResult := Except.error PyErr.typeError

/-- XBRL.parse_GAAP: every concept's matched nodes go through
data_processing with the default options and the result is stored in the
gaap_data dict under the concept key (the income_loss key is stored twice,
the second time over the concatenation with the profit-loss matches, and
the operating-continuing cash flow is stored under its shorter source key).
When the non-current-assets search matched nothing, the source computes
gaap_data assets minus gaap_data current-assets instead, an operation on
two dicts. Any exception propagates and aborts the parse. -/
def parse_GAAP (doc : Doc) (ignore_errors : Nat) :
    Except PyErr (List (String × DPResult)) := do
  let a ← data_processing doc.assets ignore_errors numOpts
  let g := dictInsert [] "assets" a
  let ca ← data_processing doc.current_assets ignore_errors numOpts
  let g := dictInsert g "current_assets" ca
  let nca ←
    if doc.non_current_assets.isEmpty then pySub a ca
    else data_processing doc.non_current_assets ignore_errors numOpts
  let g := dictInsert g "non_current_assets" nca
  let v ← data_processing doc.liabilities_and_equity ignore_errors numOpts
  let g := dictInsert g "liabilities_and_equity" v
  let v ← data_processing doc.liabilities ignore_errors numOpts
  let g := dictInsert g "liabilities" v
  let v ← data_processing doc.current_liabilities ignore_errors numOpts
  let g := dictInsert g "current_liabilities" v
  let v ← data_processing doc.noncurrent_liabilities ignore_errors numOpts
  let g := dictInsert g "noncurrent_liabilities" v
  let v ← data_processing doc.commitments_and_contingencies ignore_errors numOpts
  let g := dictInsert g "commitments_and_contingencies" v
  let v ← data_processing doc.redeemable_noncontrolling_interest ignore_errors numOpts
  let g := dictInsert g "redeemable_noncontrolling_interest" v
  let v ← data_processing doc.temporary_equity ignore_errors numOpts
  let g := dictInsert g "temporary_equity" v
  let v ← data_processing doc.equity ignore_errors numOpts
  let g := dictInsert g "equity" v
  let v ← data_processing
    (doc.minority_interest ++ doc.partners_capital_noncontrolling)
    ignore_errors numOpts
  let g := dictInsert g "equity_attributable_interest" v
  let v ← data_processing doc.equity_attributable_parent ignore_errors numOpts
  let g := dictInsert g "equity_attributable_parent" v
  let v ← data_processing doc.stockholders_equity ignore_errors numOpts
  let g := dictInsert g "stockholders_equity" v
  let v ← data_processing doc.revenues ignore_errors numOpts
  let g := dictInsert g "revenues" v
  let v ← data_processing
    (doc.cost_of_revenue ++ doc.cost_of_services ++ doc.cost_of_goods_sold
      ++ doc.cost_of_goods_and_services_sold) ignore_errors numOpts
  let g := dictInsert g "cost_of_revenue" v
  let v ← data_processing doc.gross_profit ignore_errors numOpts
  let g := dictInsert g "gross_profit" v
  let v ← data_processing doc.operating_expenses ignore_errors numOpts
  let g := dictInsert g "operating_expenses" v
  let v ← data_processing doc.costs_and_expenses ignore_errors numOpts
  let g := dictInsert g "costs_and_expenses" v
  let v ← data_processing doc.other_operating_income ignore_errors numOpts
  let g := dictInsert g "other_operating_income" v
  let v ← data_processing doc.operating_income_loss ignore_errors numOpts
  let g := dictInsert g "operating_income_loss" v
  let v ← data_processing doc.nonoperating_income_loss ignore_errors numOpts
  let g := dictInsert g "nonoperating_income_loss" v
  let v ← data_processing doc.interest_and_debt_expense ignore_errors numOpts
  let g := dictInsert g "interest_and_debt_expense" v
  let v ← data_processing doc.income_before_equity_investments ignore_errors numOpts
  let g := dictInsert g "income_before_equity_investments" v
  let v ← data_processing doc.income_from_equity_investments ignore_errors numOpts
  let g := dictInsert g "income_from_equity_investments" v
  let v ← data_processing doc.income_tax_expense_benefit ignore_errors numOpts
  let g := dictInsert g "income_tax_expense_benefit" v
  let v ← data_processing doc.income_continuing_operations_tax ignore_errors numOpts
  let g := dictInsert g "income_continuing_operations_tax" v
  let v ← data_processing doc.income_discontinued_operations ignore_errors numOpts
  let g := dictInsert g "income_discontinued_operations" v
  let v ← data_processing doc.extraordary_items_gain_loss ignore_errors numOpts
  let g := dictInsert g "extraordary_items_gain_loss" v
  let v ← data_processing doc.income_loss ignore_errors numOpts
  let g := dictInsert g "income_loss" v
  let v ← data_processing (doc.income_loss ++ doc.profit_loss) ignore_errors numOpts
  let g := dictInsert g "income_loss" v
  let v ← data_processing doc.net_income_shareholders ignore_errors numOpts
  let g := dictInsert g "net_income_shareholders" v
  let v ← data_processing doc.preferred_stock_dividends ignore_errors numOpts
  let g := dictInsert g "preferred_stock_dividends" v
  let v ← data_processing doc.net_income_loss_noncontrolling ignore_errors numOpts
  let g := dictInsert g "net_income_loss_noncontrolling" v
  let v ← data_processing doc.net_income_loss ignore_errors numOpts
  let g := dictInsert g "net_income_loss" v
  let v ← data_processing doc.other_comprehensive_income ignore_errors numOpts
  let g := dictInsert g "other_comprehensive_income" v
  let v ← data_processing doc.comprehensive_income ignore_errors numOpts
  let g := dictInsert g "comprehensive_income" v
  let v ← data_processing doc.comprehensive_income_parent ignore_errors numOpts
  let g := dictInsert g "comprehensive_income_parent" v
  let v ← data_processing doc.comprehensive_income_interest ignore_errors numOpts
  let g := dictInsert g "comprehensive_income_interest" v
  let v ← data_processing doc.net_cash_flows_operating ignore_errors numOpts
  let g := dictInsert g "net_cash_flows_operating" v
  let v ← data_processing doc.net_cash_flows_investing ignore_errors numOpts
  let g := dictInsert g "net_cash_flows_investing" v
  let v ← data_processing doc.net_cash_flows_financing ignore_errors numOpts
  let g := dictInsert g "net_cash_flows_financing" v
  let v ← data_processing doc.net_cash_flows_operating_continuing ignore_errors numOpts
  let g := dictInsert g "net_cash_operating_continuing" v
  let v ← data_processing doc.net_cash_flows_investing_continuing ignore_errors numOpts
  let g := dictInsert g "net_cash_flows_investing_continuing" v
  let v ← data_processing doc.net_cash_flows_financing_continuing ignore_errors numOpts
  let g := dictInsert g "net_cash_flows_financing_continuing" v
  let v ← data_processing doc.net_cash_flows_operating_discontinued ignore_errors numOpts
  let g := dictInsert g "net_cash_flows_operating_discontinued" v
  let v ← data_processing doc.net_cash_flows_investing_discontinued ignore_errors numOpts
  let g := dictInsert g "net_cash_flows_investing_discontinued" v
  let v ← data_processing doc.net_cash_flows_discontinued ignore_errors numOpts
  let g := dictInsert g "net_cash_flows_discontinued" v
  let v ← data_processing doc.common_shares_outstanding ignore_errors numOpts
  let g := dictInsert g "common_shares_outstanding" v
  let v ← data_processing doc.common_shares_issued ignore_errors numOpts
  let g := dictInsert g "common_shares_issued" v
  let v ← data_processing doc.common_shares_authorized ignore_errors numOpts
  let g := dictInsert g "common_shares_authorized" v
  Except.ok g

/-- The parse result XBRL.from_file assembles (the DEI and custom snapshots
are out of scope here). -/
structure ParseResult where
  context_ids : List (String × CtxPeriod)
  gaap_data : List (String × DPResult)

/-- XBRL.from_file, abstracted over the collaborating stages: the
preprocessing, tree parsing and parse_contexts outcome is the given context
result, and the DEI and custom parsing stages — which run after GAAP
parsing and cannot affect an exception raised by it — are the given unit
results. No stage is wrapped in a handler, so any raised exception
propagates and no parse result is produced. -/
def from_file (ctxResult : Except PyErr (List (String × CtxPeriod)))
    (doc : Doc) (deiResult customResult : Except PyErr Unit)
    (ignore_errors : Nat) : Except PyErr ParseResult := do
  let ctxs ← ctxResult
  let g ← parse_GAAP doc ignore_errors
  let _ ← deiResult
  let _ ← customResult
  Except.ok ⟨ctxs, g⟩

/-- C10: whenever the non-current-assets search returns an empty list (and
context building and the two preceding extractions succeed), parse_GAAP
attempts dict subtraction of the assets and current-assets mappings and
raises TypeError, and from_file therefore propagates that TypeError and
produces no parse result. -/
theorem c10_empty_noncurrent_type_error (doc : Doc) (ie : Nat) (A C : DPResult)
    (hn : doc.non_current_assets = [])
    (hA : data_processing doc.assets ie numOpts = Except.ok A)
    (hC : data_processing doc.current_assets ie numOpts = Except.ok C) :
    parse_GAAP doc ie = Except.error PyErr.typeError ∧
    ∀ ctxs deiR customR,
      from_file (Except.ok ctxs) doc deiR customR ie
        = Except.error PyErr.typeError := by
  have hg : parse_GAAP doc ie = Except.error PyErr.typeError := by
    unfold parse_GAAP
    rw [hA, hC, hn]
    rfl
  refine ⟨hg, ?_⟩
  intro ctxs deiR customR
  unfold from_file
  rw [hg]
  rfl

theorem c10_empty_noncurrent_type_error_witness :
    parse_GAAP emptyDoc 1 = Except.error PyErr.typeError ∧
    from_file (Except.ok []) emptyDoc (Except.ok ()) (Except.ok ()) 1
      = Except.error PyErr.typeError := by
  have h := c10_empty_noncurrent_type_error emptyDoc 1
      (DPResult.map []) (DPResult.map []) rfl rfl rfl
  exact ⟨h.1, h.2 [] (Except.ok ()) (Except.ok ())⟩

end PyXbrl
